import Mathlib

/-!
Shallow embedding of the dslx-llm evaluation harness (src/eval.py,
src/dslx_text.py, src/dslx_run_flags.py, src/critic.py) and verification of
the specification's claims about it.

Python strings are modelled as Lean `String` (a list of unicode characters);
string primitives used by the source (`str.strip`, `str.splitlines`,
`str.startswith`, `str.endswith`, `in`, `str.lower`, `shlex.split`) are
embedded below, restricted to the whitespace/line-break character sets Python
documents for them.  Fallible Python code (`raise ValueError`, failing
`assert`, `KeyError`) is embedded with `Except`.
-/

namespace DslxLlm

/-- Characters Python's `str.strip()` removes and `re`'s `\s` matches
(ASCII whitespace plus the common unicode whitespace characters). -/
def isPySpace (c : Char) : Bool :=
  c = ' ' || c = '\t' || c = '\n' || c = '\x0d' || c = '\x0b' || c = '\x0c' ||
  c = '\x1c' || c = '\x1d' || c = '\x1e' || c = '\x1f' || c = '\x85' || c = '\xa0'

/-- Characters Python's `str.splitlines()` treats as line boundaries. -/
def isLineBreak (c : Char) : Bool :=
  c = '\n' || c = '\x0d' || c = '\x0b' || c = '\x0c' ||
  c = '\x1c' || c = '\x1d' || c = '\x1e' || c = '\x85' ||
  c = '\u2028' || c = '\u2029'

/-- Python `str.strip()` on the character list: drop leading and trailing whitespace. -/
def pyStripL (cs : List Char) : List Char :=
  ((cs.dropWhile isPySpace).reverse.dropWhile isPySpace).reverse

/-- Python `str.strip()`. -/
def pyStrip (s : String) : String := ⟨pyStripL s.data⟩

/-- Worker for `str.splitlines()`: accumulates the current line (reversed) in
`acc`; a trailing line with no final break is emitted, but a string ending
exactly at a break emits nothing further.  The two-character break `\r\n`
is handled by the `skipNL` flag: after a carriage return the immediately
following line feed (if any) is consumed without effect. -/
def slAux : List Char → List Char → Bool → List (List Char)
  | [], acc, _ => if acc.isEmpty then [] else [acc.reverse]
  | c :: rest, acc, skipNL =>
      if skipNL = true ∧ c = '\n' then slAux rest acc false
      else if c = '\x0d' then acc.reverse :: slAux rest [] true
      else if isLineBreak c then acc.reverse :: slAux rest [] false
      else slAux rest (c :: acc) false

/-- Python `str.splitlines()`. -/
def pySplitlines (s : String) : List String := (slAux s.data [] false).map (⟨·⟩)

/-- Python `str.startswith(pre)`. -/
def pyStartsWith (s pre : String) : Bool := pre.data.isPrefixOf s.data

/-- Python `str.endswith("\n")` (the only suffix the source tests). -/
def pyEndsWithNL (s : String) : Bool := s.data.getLast? == some '\n'

/-- Substring containment, Python's `needle in hay`. -/
def containsSub (needle : List Char) : List Char → Bool
  | [] => needle.isEmpty
  | c :: t => needle.isPrefixOf (c :: t) || containsSub needle t

/-- Python `str.lower()` (the source only lowercases ASCII section names). -/
def pyLower (s : String) : String := ⟨s.data.map Char.toLower⟩

/-- Python `"\n".join(lines)` on character lists. -/
def joinNL : List (List Char) → List Char
  | [] => []
  | [l] => l
  | l :: ls => l ++ '\n' :: joinNL ls

/-- The three-backtick fence delimiter as a character list. -/
def fenceChars : List Char := ['`', '`', '`']

/-- Index of the last line equal to the fence delimiter:
`len(lines) - 1 - lines[::-1].index("```")` of the source, `none` when the
reversed-index lookup raises `ValueError`. -/
def findLastFence : List (List Char) → Option Nat
  | [] => none
  | l :: rest =>
      match findLastFence rest with
      | some i => some (i + 1)
      | none => if l = fenceChars then some 0 else none

/-- Embeds `strip_fences` from src/dslx_text.py (the copy in src/eval.py is
identical), on character lists: strip surrounding whitespace; unfenced text is
returned as-is (after the strip); fenced text must contain a closing fence
line after the opening line, and the payload is the lines strictly between
the opening line and the last fence line, re-joined with newlines. -/
def stripFencesL (cs0 : List Char) : Except String (List Char) :=
  let cs := pyStripL cs0
  if fenceChars.isPrefixOf cs then
    let lines := slAux cs [] false
    match findLastFence lines with
    | none => .error "Missing closing ``` fence in code block."
    | some closingIndex =>
        if closingIndex = 0 then
          .error "Code block consists solely of an opening ``` fence."
        else
          .ok (joinNL ((lines.drop 1).take (closingIndex - 1)))
  else
    .ok cs

/-- Embeds `strip_fences` on `String`. -/
def strip_fences (s : String) : Except String String :=
  (stripFencesL s.data).map (⟨·⟩)

/-- Errors Python raises in src/dslx_run_flags.py: `ValueError` (from
`shlex.split`) versus `AssertionError` (from a failing `assert`). -/
inductive PyErr where
  | valueError (msg : String)
  | assertionError (msg : String)
deriving DecidableEq, Repr

/-- The shlex token-reading mode: outside quotes, inside single quotes,
inside double quotes. -/
inductive ShlexMode where
  | norm
  | singleQ
  | doubleQ
deriving DecidableEq, Repr

/-- Characters `shlex` treats as token separators. -/
def isShlexWS (c : Char) : Bool :=
  c = ' ' || c = '\t' || c = '\x0d' || c = '\n'

/-- Worker for `shlex.split` in POSIX mode with whitespace splitting (what
`shlex.split(s)` does): `acc` holds the current token reversed, `hasTok`
records whether a token is in progress (a quoted empty string still yields a
token).  Unterminated quotes raise `ValueError("No closing quotation")`; a
trailing escape raises `ValueError("No escaped character")`.  Inside double
quotes a backslash escapes only `"` and `\` and is otherwise kept. -/
def shlexAux : ShlexMode → List Char → Bool → List Char → Except String (List (List Char))
  | .norm, acc, hasTok, [] => .ok (if hasTok then [acc.reverse] else [])
  | .norm, acc, hasTok, c :: rest =>
      if isShlexWS c then
        if hasTok then (shlexAux .norm [] false rest).map (acc.reverse :: ·)
        else shlexAux .norm [] false rest
      else if c = '\'' then shlexAux .singleQ acc true rest
      else if c = '"' then shlexAux .doubleQ acc true rest
      else if c = '\\' then
        match rest with
        | [] => .error "No escaped character"
        | d :: rest2 => shlexAux .norm (d :: acc) true rest2
      else shlexAux .norm (c :: acc) true rest
  | .singleQ, _, _, [] => .error "No closing quotation"
  | .singleQ, acc, hasTok, c :: rest =>
      if c = '\'' then shlexAux .norm acc hasTok rest
      else shlexAux .singleQ (c :: acc) hasTok rest
  | .doubleQ, _, _, [] => .error "No closing quotation"
  | .doubleQ, acc, hasTok, c :: rest =>
      if c = '"' then shlexAux .norm acc hasTok rest
      else if c = '\\' then
        match rest with
        | [] => .error "No escaped character"
        | d :: rest2 =>
            if d = '"' || d = '\\' then shlexAux .doubleQ (d :: acc) hasTok rest2
            else shlexAux .doubleQ (d :: '\\' :: acc) hasTok rest2
      else shlexAux .doubleQ (c :: acc) hasTok rest

/-- Python `shlex.split` on character lists. -/
def shlexSplitL (cs : List Char) : Except String (List (List Char)) :=
  shlexAux .norm [] false cs

/-- Embeds `_DSLX_RUN_FLAGS_RE.match(line)`: the regex
`^\s*//\s*dslx_run_(?:flags|options):\s*(.*)\s*$` of src/dslx_run_flags.py
(matched against single lines, which contain no newline).  Returns the first
capture group: the rest of the line after the whitespace that follows the
colon (the greedy `(.*)` keeps any trailing whitespace). -/
def matchDirectiveL (line : List Char) : Option (List Char) :=
  let cs := line.dropWhile isPySpace
  if ['/', '/'].isPrefixOf cs then
    let cs := (cs.drop 2).dropWhile isPySpace
    if "dslx_run_".data.isPrefixOf cs then
      let cs := cs.drop 9
      if "flags:".data.isPrefixOf cs then
        some ((cs.drop 6).dropWhile isPySpace)
      else if "options:".data.isPrefixOf cs then
        some ((cs.drop 8).dropWhile isPySpace)
      else none
    else none
  else none

/-- The `assert tok.startswith('--')` check of `extract_dslx_run_flags`,
applied to every token in order; the f-string repr of the offending token is
modelled by appending the token itself. -/
def checkToks : List (List Char) → Except PyErr (List (List Char))
  | [] => .ok []
  | t :: ts =>
      if ['-', '-'].isPrefixOf t then (checkToks ts).map (t :: ·)
      else .error (.assertionError
        (⟨"dslx_run_* directive token must start with --: ".data ++ t⟩))

/-- Per-line flag collection loop of `extract_dslx_run_flags`
(src/dslx_run_flags.py): skip non-directive lines, skip directives whose
stripped argument text is empty, shell-tokenize the rest and assert every
token starts with `--`. -/
def extractFlagsLines : List (List Char) → Except PyErr (List (List Char))
  | [] => .ok []
  | l :: rest =>
      match matchDirectiveL l with
      | none => extractFlagsLines rest
      | some g =>
          let extra := pyStripL g
          if extra.isEmpty then extractFlagsLines rest
          else
            match shlexSplitL extra with
            | .error m => .error (.valueError m)
            | .ok toks =>
                match checkToks toks with
                | .error e => .error e
                | .ok toks => (extractFlagsLines rest).map (toks ++ ·)

/-- Order-preserving deduplication (the `seen` set loop of
`extract_dslx_run_flags`). -/
def dedupFlags (seen : List (List Char)) : List (List Char) → List (List Char)
  | [] => []
  | f :: rest =>
      if f ∈ seen then dedupFlags seen rest
      else f :: dedupFlags (f :: seen) rest

/-- Embeds `extract_dslx_run_flags` from src/dslx_run_flags.py (single-text form;
the src/eval.py variant folds the same loop over several texts). -/
def extract_dslx_run_flags (text : String) : Except PyErr (List String) :=
  (extractFlagsLines (slAux text.data [] false)).map (fun fs => (dedupFlags [] fs).map (⟨·⟩))

/-- Embeds the `split_dslx_run_flags_from_code` line loop: directive lines contribute
their shell-tokenized group text to the flags, all other lines are kept. -/
def splitFlagsLines : List (List Char) → Except String (List (List Char) × List (List Char))
  | [] => .ok ([], [])
  | l :: rest =>
      match matchDirectiveL l with
      | some g =>
          match shlexSplitL g with
          | .error m => .error m
          | .ok toks => (splitFlagsLines rest).map (fun p => (toks ++ p.1, p.2))
      | none => (splitFlagsLines rest).map (fun p => (p.1, l :: p.2))

/-- Embeds `split_dslx_run_flags_from_code` from src/dslx_run_flags.py: removes
directive lines, returns the cleaned code (re-joined with newlines,
restoring a trailing newline iff the input ended with one) plus the
extracted flags. -/
def split_dslx_run_flags_from_code (code : String) :
    Except String (String × List String) :=
  (splitFlagsLines (slAux code.data [] false)).map fun p =>
    (⟨joinNL p.2 ++ (if pyEndsWithNL code then ['\n'] else [])⟩, p.1.map (⟨·⟩))

/-- The `Sample` dataclass of src/eval.py. -/
structure Sample where
  prompt : String
  signature : String
  tests : String
  prologue : Option String := none
  requirements : Option String := none
deriving DecidableEq, Repr

/-- Section-splitter worker of `parse_sample`: a `## ` line opens a new
section named by the lowercased stripped header text; other lines are
appended to the current section's body, and lines before the first header
(no current section) are dropped.  Returns the (name, body) segments in
order; a repeated header name later in the file resets the dict entry, so
the dict value for a name is the body of its last segment. -/
def segAux : List String → Option (String × List String) → List (String × List String)
  | [], cur =>
      match cur with
      | none => []
      | some s => [s]
  | l :: rest, cur =>
      if pyStartsWith l "## " then
        let seg := (pyLower (pyStrip ⟨l.data.drop 3⟩), ([] : List String))
        match cur with
        | none => segAux rest (some seg)
        | some s => s :: segAux rest (some seg)
      else
        match cur with
        | none => segAux rest none
        | some s => segAux rest (some (s.1, s.2 ++ [l]))

/-- Embeds `sections[name]` of `parse_sample`: the body of the last segment with
that name, `none` when the key is absent (a lookup then raises `KeyError`). -/
def sectionsGet (content : String) (name : String) : Option (List String) :=
  (((segAux (pySplitlines content) none).filter (fun s => s.1 == name)).getLast?).map (·.2)

/-- Embeds `parse_sample` of src/eval.py (reading the file is external; this takes
the file content): splits the document into `## ` sections (header names
lowercased, lines before the first header discarded), and builds a `Sample`
from the mandatory `prompt`, `signature` and `tests` sections (a missing one
raises `KeyError`) and the optional `prologue` and `requirements` sections;
each body is newline-joined and stripped. -/
def parse_sample (content : String) : Except String Sample :=
  match sectionsGet content "prompt" with
  | none => .error "KeyError: prompt"
  | some p =>
    match sectionsGet content "signature" with
    | none => .error "KeyError: signature"
    | some sg =>
      match sectionsGet content "tests" with
      | none => .error "KeyError: tests"
      | some ts =>
          .ok { prompt := pyStrip (String.intercalate "\n" p),
                signature := pyStrip (String.intercalate "\n" sg),
                tests := pyStrip (String.intercalate "\n" ts),
                prologue := (sectionsGet content "prologue").map
                  (fun b => pyStrip (String.intercalate "\n" b)),
                requirements := (sectionsGet content "requirements").map
                  (fun b => pyStrip (String.intercalate "\n" b)) }

/-- The `RunResult` dataclass of src/eval.py. -/
structure RunResult where
  command : String
  success : Bool
  retcode : Int
  stdout : String
  stderr : String
deriving DecidableEq, Repr

/-- The prologue-lines loop of `run_dslx_tests`: when the sample has a
(truthy, i.e. nonempty) prologue, de-fence it and collect its lines each
stripped; fence errors propagate. -/
def prologueLinesOf (sample : Sample) : Except String (List String) :=
  match sample.prologue with
  | none => .ok []
  | some p =>
      if p = "" then .ok []
      else (strip_fences p).map (fun pr => (pySplitlines pr).map pyStrip)

/-- The program-composition part of `run_dslx_tests` (src/eval.py): the
`full_code` string written to the `.x` file.  Prologue lines get an
`import std;` appended when neither the raw generated text contains
`import std;` as a substring nor some prologue line strips to exactly
`import std;`; then prologue lines are newline-joined, followed by a blank
line, the de-fenced generated code, the `// -- tests` marker and the
de-fenced sample tests.  (The subprocess invocation itself is external.) -/
def run_dslx_tests_full_code (generated_code : String) (sample : Sample) :
    Except String String := do
  let prologue_lines ← prologueLinesOf sample
  let has_import_std :=
    containsSub "import std;".data generated_code.data ||
    prologue_lines.any (fun l => pyStrip l == "import std;")
  let prologue_lines :=
    if has_import_std then prologue_lines else prologue_lines ++ ["import std;"]
  let gen ← strip_fences generated_code
  let tests ← strip_fences sample.tests
  pure (String.intercalate "\n" prologue_lines ++ "\n\n" ++ gen ++
        "\n\n// -- tests\n\n" ++ tests)

/-- The `CriticResult` dataclass (src/critic.py and src/eval.py); the float
confidence is modelled as a rational. -/
structure CriticResult where
  ok : Bool
  confidence : Rat
  message : String
  raw_json : String
deriving DecidableEq, Repr

/-- The values `run_critic` reads out of a successfully parsed critic JSON
object: `bool(parsed.get("pass"))`, `float(parsed.get("confidence", 0.0))`
and `str(parsed.get("message", ""))`. -/
structure JsonVerdict where
  pass : Bool
  confidence : Rat
  message : String
deriving DecidableEq, Repr

/-- One parse attempt of `run_critic` on a reply `t`:
`_parse_critic_json` de-fences `t`, strips it and hands it to `json.loads`
(modelled by the oracle `jl`, which also performs the `get`-with-default
coercions); any failure (fence error or JSON error) is caught by the
`except Exception` and yields `none`.  On success the returned
`CriticResult` carries the coerced fields, the stripped message, and the
de-fenced stripped reply as `raw_json`. -/
def criticTry (jl : String → Option JsonVerdict) (t : String) : Option CriticResult :=
  match strip_fences t with
  | .error _ => none
  | .ok s0 =>
      match jl (pyStrip s0) with
      | none => none
      | some v =>
          some { ok := v.pass, confidence := v.confidence,
                 message := pyStrip v.message, raw_json := pyStrip s0 }

/-- Embeds `run_critic` (src/critic.py; the src/eval.py copy differs only in how the
context is passed): the model replies for the two internal attempts of
`for attempt in range(1, 3)` are `reply1` and `reply2` (each `.strip()`ped on
receipt); the first reply that parses yields the verdict.  When both fail the
fallback return itself calls `strip_fences` on the last reply, so a fence
error there propagates as a raised `ValueError` (`Except.error`). -/
def run_critic (jl : String → Option JsonVerdict) (reply1 reply2 : String) :
    Except String CriticResult :=
  let t1 := pyStrip reply1
  match criticTry jl t1 with
  | some r => .ok r
  | none =>
      let t2 := pyStrip reply2
      match criticTry jl t2 with
      | some r => .ok r
      | none =>
          (strip_fences t2).map fun r =>
            { ok := false, confidence := 0,
              message := "Critic did not return valid JSON after retries.",
              raw_json := pyStrip r }

/-- The `EvaluateSampleResult` dataclass of src/eval.py: the controller's
outcome record holds exactly these two booleans. -/
structure EvaluateSampleResult where
  success : Bool
  first_attempt_success : Bool
deriving DecidableEq, Repr

/-- The external world one `evaluate_sample` run interacts with, as
deterministic oracles indexed by the attempt number: `gen k fb` is the
assistant text returned on attempt `k` (via `generate_code` when `fb = none`,
via `provide_feedback fb` otherwise), `run k code` is the toolchain
`RunResult` for that attempt, and `critic k code` the critic verdict. -/
structure Env where
  gen : Nat → Option String → String
  run : Nat → String → RunResult
  critic : Nat → String → CriticResult

/-- The fence-failure corrective feedback string built in `evaluate_sample`
from the `ValueError` message `e`. -/
def fenceFeedback (e : String) : String :=
  "Your response did not include a *balanced* triple-backtick fenced code block. Error details: "
    ++ e ++ "\nPlease output the DSLX solution wrapped in ``` fences as previously requested."

/-- The critic-failure corrective feedback string built in `evaluate_sample`. -/
def criticFeedback (msg : String) : String :=
  "Requirements check failed (tests passed). Please revise the implementation to satisfy the requirements.\n\n"
    ++ "Critic message: " ++ msg ++ "\n"

/-- The `run_critic_step and sample.requirements` condition of
`evaluate_sample` (Python string truthiness: `None` and `\"\"` are falsy). -/
def wantsCritic (runCriticStep : Bool) (req : Option String) : Bool :=
  runCriticStep && (match req with
    | none => false
    | some s => !(s == ""))

/-- The per-attempt record the controller produces: the feedback consumed at
the top of the attempt (`none` on the first), the candidate appended to
`all_generated`, the toolchain `RunResult` when the toolchain was invoked
(`none` when fence validation failed first) and the critic verdict when the
critic ran. -/
structure AttemptTrace where
  index : Nat
  feedbackUsed : Option String
  generated : String
  runResult : Option RunResult
  criticVerdict : Option CriticResult
deriving DecidableEq, Repr

/-- The retry loop of `evaluate_sample` (src/eval.py): one iteration per
remaining budget unit.  Each attempt generates a candidate (feedback-driven
after a failure), fence-validates it (a `ValueError` sets the fence feedback
and continues without invoking the toolchain), runs the toolchain, on
toolchain failure feeds back the stderr, and on toolchain success either
returns — `first_attempt_success` iff the attempt index is 1 — or, when the
critic step is enabled and requirements are present, consults the critic and
continues with the critic feedback on a non-ok verdict.  Exhausting the
budget returns the failure outcome (the `first_attempt_success` local is
never set before the final return, so it is `false`). -/
def evalLoop (env : Env) (runCriticStep : Bool) (req : Option String) :
    Nat → Option String → Nat → EvaluateSampleResult × List AttemptTrace
  | _, _, 0 => (⟨false, false⟩, [])
  | attempt, fb, budget + 1 =>
      let code := env.gen attempt fb
      match strip_fences code with
      | .error e =>
          let next := evalLoop env runCriticStep req (attempt + 1)
            (some (fenceFeedback e)) budget
          (next.1, ⟨attempt, fb, code, none, none⟩ :: next.2)
      | .ok _ =>
          let rr := env.run attempt code
          if rr.success then
            if wantsCritic runCriticStep req then
              let cr := env.critic attempt code
              if cr.ok then
                (⟨true, attempt == 1⟩, [⟨attempt, fb, code, some rr, some cr⟩])
              else
                let next := evalLoop env runCriticStep req (attempt + 1)
                  (some (criticFeedback cr.message)) budget
                (next.1, ⟨attempt, fb, code, some rr, some cr⟩ :: next.2)
            else
              (⟨true, attempt == 1⟩, [⟨attempt, fb, code, some rr, none⟩])
          else
            let next := evalLoop env runCriticStep req (attempt + 1)
              (some rr.stderr) budget
            (next.1, ⟨attempt, fb, code, some rr, none⟩ :: next.2)

/-- Embeds `evaluate_sample` (src/eval.py): run the retry loop starting at attempt 1
with no feedback, for `range(1, max(1, max_retries) + 1)` — that is,
`max(1, max_retries)` — iterations.  Returns the code's
`EvaluateSampleResult` together with the attempt history. -/
def evaluate_sample (env : Env) (sample : Sample) (max_retries : Int)
    (runCriticStep : Bool) : EvaluateSampleResult × List AttemptTrace :=
  evalLoop env runCriticStep sample.requirements 1 none (max 1 max_retries).toNat

/-- A minimal sample without prologue or requirements, used as concrete input
for controller witnesses. -/
def sampleBare : Sample :=
  { prompt := "p", signature := "s", tests := "t1" }

/-- A sample with a one-line prologue, used as concrete input for the
program-composition witness. -/
def sampleWithPrologue : Sample :=
  { prompt := "p", signature := "s", tests := "t1", prologue := some "top" }

/-- A toolchain oracle that fails every run. -/
def runAlwaysFails : Nat → String → RunResult :=
  fun _ _ => { command := "cmd", success := false, retcode := 1, stdout := "", stderr := "boom" }

/-- A critic oracle that always answers ok (never consulted in the failure
scenarios below). -/
def criticAlwaysOk : Nat → String → CriticResult :=
  fun _ _ => { ok := true, confidence := 1, message := "", raw_json := "" }

/-- Environment A: the model always replies `candidateA`, every toolchain run
fails. -/
def envFailA : Env :=
  { gen := fun _ _ => "candidateA", run := runAlwaysFails, critic := criticAlwaysOk }

/-- Environment B: as A but the model always replies `candidateB`. -/
def envFailB : Env :=
  { gen := fun _ _ => "candidateB", run := runAlwaysFails, critic := criticAlwaysOk }

/-- Environment for the first-attempt-success scenario: a well-fenced reply
and a toolchain that always succeeds. -/
def envFirstOk : Env :=
  { gen := fun _ _ => "```\nfn f\n```",
    run := fun _ _ => { command := "cmd", success := true, retcode := 0, stdout := "", stderr := "" },
    critic := criticAlwaysOk }

/-- Environment for the fence-failure scenario: attempt 1 replies a lone
opening fence, later attempts reply unfenced code; every run fails. -/
def envFenceFirst : Env :=
  { gen := fun k _ => if k = 1 then "```" else "fnbody",
    run := runAlwaysFails, critic := criticAlwaysOk }

end DslxLlm

namespace DslxLlm

-- Sanity examples for the Python string primitives (kept as theorems so the
-- file stays free of commands).

theorem pySplitlines_examples :
    pySplitlines "a\nb" = ["a", "b"] ∧ pySplitlines "a\n" = ["a"] ∧
    pySplitlines "" = [] ∧ pySplitlines "\n" = [""] ∧
    pySplitlines "a\n\n" = ["a", ""] := by
  refine ⟨rfl, rfl, rfl, rfl, rfl⟩

theorem strip_fences_examples :
    strip_fences "```\nbody\n```" = .ok "body" ∧
    strip_fences "plain" = .ok "plain" ∧
    strip_fences "```" = .error "Code block consists solely of an opening ``` fence." ∧
    strip_fences "```dslx\nx" = .error "Missing closing ``` fence in code block." := by
  refine ⟨rfl, rfl, rfl, rfl⟩

theorem shlex_examples :
    shlexSplitL "--a=1  --b".data = .ok [['-', '-', 'a', '=', '1'], ['-', '-', 'b']] ∧
    shlexSplitL "\"x y\"".data = .ok [['x', ' ', 'y']] ∧
    shlexSplitL "\"x".data = .error "No closing quotation" := by
  refine ⟨rfl, rfl, rfl⟩

theorem extract_flags_examples :
    extract_dslx_run_flags "// dslx_run_flags: --a --a --b" = .ok ["--a", "--b"] ∧
    extract_dslx_run_flags "code line\n  //dslx_run_options: --w=false" = .ok ["--w=false"] ∧
    extract_dslx_run_flags "// dslx_run_flags: bad" =
      .error (.assertionError "dslx_run_* directive token must start with --: bad") := by
  refine ⟨rfl, rfl, rfl⟩

theorem split_flags_examples :
    split_dslx_run_flags_from_code "a\n// dslx_run_flags: --x\nb\n" = .ok ("a\nb\n", ["--x"]) ∧
    split_dslx_run_flags_from_code "a\nb" = .ok ("a\nb", []) := by
  refine ⟨rfl, rfl⟩

theorem findLastFence_spec :
    ∀ (ls : List (List Char)) (i : Nat), findLastFence ls = some i →
      ls.get? i = some fenceChars := by
  intro ls
  induction ls with
  | nil => intro i h; simp [findLastFence] at h
  | cons l rest ih =>
      intro i h
      unfold findLastFence at h
      cases hr : findLastFence rest with
      | some j =>
          rw [hr] at h
          cases h
          simpa using ih j hr
      | none =>
          rw [hr] at h
          by_cases hl : l = fenceChars
          · rw [if_pos hl] at h
            cases h
            simp [hl]
          · rw [if_neg hl] at h
            cases h

/-- C5 counterexample: the text `" x"` does not start with the fence
delimiter, yet `strip_fences` returns `"x"`, not `" x"` unchanged (the code
strips surrounding whitespace before anything else). -/
theorem claim_C5_counterexample :
    pyStartsWith " x" "```" = false ∧ strip_fences " x" ≠ Except.ok " x" := by
  refine ⟨rfl, ?_⟩
  intro h
  have h2 : (Except.ok "x" : Except String String) = Except.ok " x" := h
  have h3 : (['x'] : List Char) = [' ', 'x'] :=
    congrArg String.data (Except.ok.inj h2)
  simp at h3

/-- C5 (amended): for every text `t` that, once stripped of surrounding
whitespace, does not start with the fence delimiter, `strip_fences t`
returns the stripped text (hence `t` itself exactly when `t` carries no
surrounding whitespace). -/
theorem claim_C5_amended (t : String)
    (h : pyStartsWith (pyStrip t) "```" = false) :
    strip_fences t = .ok (pyStrip t) := by
  have h' : fenceChars.isPrefixOf (pyStripL t.data) = false := h
  unfold strip_fences stripFencesL
  simp [h']
  rfl

/-- Witness for C5 (amended) at `t = "hello"`. -/
theorem claim_C5_witness :
    pyStartsWith (pyStrip "hello") "```" = false ∧
    strip_fences "hello" = .ok (pyStrip "hello") :=
  ⟨by decide, claim_C5_amended "hello" (by decide)⟩

/-- C6 counterexample: when the closing delimiter is the very next line the
block encloses nothing, but `strip_fences` succeeds with the empty payload
instead of failing (`closing_index` is 1, not 0, so no error is raised). -/
theorem claim_C6_counterexample :
    strip_fences "```\n```" = Except.ok "" := rfl

/-- C6 (amended): for every text that (after the initial whitespace strip)
starts with the fence delimiter, if no line after the opening line consists
solely of the delimiter then `strip_fences` fails with a fence error; an
empty block whose closing delimiter is the very next line instead succeeds
with the empty payload. -/
theorem claim_C6_amended (t : String)
    (h1 : pyStartsWith (pyStrip t) "```" = true)
    (h2 : ∀ l ∈ (pySplitlines (pyStrip t)).drop 1, l ≠ "```") :
    ∃ e, strip_fences t = .error e := by
  have h1' : fenceChars.isPrefixOf (pyStripL t.data) = true := h1
  unfold strip_fences stripFencesL
  simp only [h1', if_true]
  cases hf : findLastFence (slAux (pyStripL t.data) [] false) with
  | none => exact ⟨_, rfl⟩
  | some i =>
      cases i with
      | zero => exact ⟨_, rfl⟩
      | succ j =>
          exfalso
          have hget := findLastFence_spec _ _ hf
          have hmem : fenceChars ∈ (slAux (pyStripL t.data) [] false).drop 1 := by
            have : ((slAux (pyStripL t.data) [] false).drop 1).get? j = some fenceChars := by
              rw [List.get?_eq_getElem?, List.getElem?_drop]
              rw [Nat.add_comm]
              simpa using hget
            exact List.get?_mem this
          have hmem' : ("```" : String) ∈ (pySplitlines (pyStrip t)).drop 1 := by
            have : (pySplitlines (pyStrip t)).drop 1 =
                ((slAux (pyStripL t.data) [] false).drop 1).map (⟨·⟩) := by
              simp [pySplitlines, pyStrip, List.map_drop]
            rw [this]
            exact List.mem_map_of_mem _ hmem
          exact h2 _ hmem' rfl

/-- Witness for C6 (amended) at `t = "```\nabc"`: an opening fence with no
closing line fails. -/
theorem claim_C6_witness :
    pyStartsWith (pyStrip "```\nabc") "```" = true ∧
    ∃ e, strip_fences "```\nabc" = .error e :=
  ⟨by decide, claim_C6_amended "```\nabc" (by decide) (by decide)⟩

/-- C4: evaluation of `run_critic` at a failing input.  Both critic replies
are `"```\nnope"` (an opening fence with no closing fence), so both internal
parse attempts fail; the fallback return then calls `strip_fences` on the
last reply outside of any exception handler, and that call raises a
`ValueError` — `run_critic` raises instead of returning the non-ok verdict
the spec promises. -/
theorem claim_C4_code_bug :
    run_critic (fun _ => none) "```\nnope" "```\nnope" =
      .error "Code block consists solely of an opening ``` fence." := rfl

theorem slAux_cons_not_break (c : Char) (rest acc : List Char)
    (h : isLineBreak c = false) :
    slAux (c :: rest) acc false = slAux rest (c :: acc) false := by
  have hc : ¬ c = '\x0d' := by
    intro he
    rw [he] at h
    have : isLineBreak '\x0d' = true := by decide
    rw [this] at h
    cases h
  have hb : ¬ isLineBreak c = true := by simp [h]
  have hskip : ¬ ((false = true) ∧ c = '\n') := by simp
  rw [slAux]
  rw [if_neg hskip, if_neg hc, if_neg hb]

theorem slAux_cons_nl (rest acc : List Char) :
    slAux ('\n' :: rest) acc false = acc.reverse :: slAux rest [] false := by
  have hc : ¬ ('\n' : Char) = '\x0d' := by decide
  have hb : isLineBreak '\n' = true := by decide
  have hskip : ¬ ((false = true) ∧ ('\n' : Char) = '\n') := by simp
  rw [slAux]
  rw [if_neg hskip, if_neg hc, if_pos hb]

theorem slAux_break_free (cs : List Char)
    (h : ∀ c ∈ cs, isLineBreak c = false) :
    ∀ acc : List Char, acc ≠ [] ∨ cs ≠ [] →
      slAux cs acc false = [acc.reverse ++ cs] := by
  induction cs with
  | nil =>
      intro acc hne
      have hacc : acc ≠ [] := by
        rcases hne with h1 | h1
        · exact h1
        · exact absurd rfl h1
      have : acc.isEmpty = false := by
        cases acc with
        | nil => exact absurd rfl hacc
        | cons a l => rfl
      simp [slAux, this]
  | cons c rest ih =>
      intro acc _
      rw [slAux_cons_not_break c rest acc (h c (by simp))]
      rw [ih (fun x hx => h x (by simp [hx])) (c :: acc) (Or.inl (by simp))]
      simp

theorem slAux_single_line (cs : List Char) (hne : cs ≠ [])
    (h : ∀ c ∈ cs, isLineBreak c = false) : slAux cs [] false = [cs] := by
  rw [slAux_break_free cs h [] (Or.inr hne)]
  simp

theorem checkToks_err (toks : List (List Char))
    (h : ∃ t ∈ toks, ['-', '-'].isPrefixOf t = false) :
    ∃ m, checkToks toks = .error (.assertionError m) := by
  induction toks with
  | nil => rcases h with ⟨t, ht, _⟩; cases ht
  | cons t ts ih =>
      by_cases hp : ['-', '-'].isPrefixOf t = true
      · rcases h with ⟨t0, ht0, hbad⟩
        rcases List.mem_cons.mp ht0 with he | hmem
        · rw [he] at hbad; rw [hp] at hbad; cases hbad
        · rcases ih ⟨t0, hmem, hbad⟩ with ⟨m, hm⟩
          refine ⟨m, ?_⟩
          simp only [checkToks, if_pos hp, hm]
          rfl
      · refine ⟨⟨"dslx_run_* directive token must start with --: ".data ++ t⟩, ?_⟩
        simp only [checkToks, if_neg hp]

/-- C8: a directive line whose shell-tokenized argument list contains a
token that does not start with `--` makes `extract_dslx_run_flags` fail
with the `AssertionError` (a fatal contract violation, distinct from the
recoverable `ValueError`s of this module). -/
theorem claim_C8 (line : String) (g : List Char) (toks : List (List Char))
    (tok : List Char)
    (hnb : ∀ c ∈ line.data, isLineBreak c = false)
    (hm : matchDirectiveL line.data = some g)
    (hs : shlexSplitL (pyStripL g) = .ok toks)
    (ht : tok ∈ toks)
    (hbad : ['-', '-'].isPrefixOf tok = false) :
    ∃ m, extract_dslx_run_flags line = .error (.assertionError m) := by
  have hne : line.data ≠ [] := by
    intro h0
    have hnil : matchDirectiveL ([] : List Char) = none := rfl
    rw [h0, hnil] at hm
    cases hm
  have hsl : slAux line.data [] false = [line.data] := slAux_single_line _ hne hnb
  have hextra : (pyStripL g).isEmpty = false := by
    cases hg : pyStripL g with
    | nil =>
        rw [hg] at hs
        have : shlexSplitL ([] : List Char) = .ok [] := rfl
        rw [this] at hs
        cases hs
        cases ht
    | cons a l => rfl
  rcases checkToks_err toks ⟨tok, ht, hbad⟩ with ⟨m, hck⟩
  refine ⟨m, ?_⟩
  unfold extract_dslx_run_flags
  rw [hsl]
  simp only [extractFlagsLines, hm, hextra, hs, hck]
  rfl

/-- Witness for C8 at the directive line `"// dslx_run_flags: oops"`. -/
theorem claim_C8_witness :
    ∃ m, extract_dslx_run_flags "// dslx_run_flags: oops" =
      .error (.assertionError m) :=
  claim_C8 "// dslx_run_flags: oops" "oops".data [['o', 'o', 'p', 's']]
    ['o', 'o', 'p', 's'] (by decide) rfl rfl (by simp) (by decide)

/-- C7: `run_dslx_tests` composes the program file as the prologue lines,
with an `import std;` line injected iff neither the generated text contains
`import std;` nor some prologue line strips to exactly `import std;`,
followed by a blank line, the de-fenced generated code, the `// -- tests`
marker and the de-fenced sample tests. -/
theorem claim_C7 (generated_code : String) (sample : Sample)
    (pl : List String) (gen tests : String)
    (h1 : prologueLinesOf sample = .ok pl)
    (h2 : strip_fences generated_code = .ok gen)
    (h3 : strip_fences sample.tests = .ok tests) :
    run_dslx_tests_full_code generated_code sample =
      .ok (String.intercalate "\n"
            (pl ++ (if containsSub "import std;".data generated_code.data ||
                       pl.any (fun l => pyStrip l == "import std;") then []
                    else ["import std;"])) ++
           "\n\n" ++ gen ++ "\n\n// -- tests\n\n" ++ tests) := by
  unfold run_dslx_tests_full_code
  rw [h1]
  by_cases hc : (containsSub "import std;".data generated_code.data ||
      pl.any (fun l => pyStrip l == "import std;")) = true
  · simp only [bind, Except.bind, hc, if_true, h2, h3]
    simp only [List.append_nil]
    rfl
  · have hc' : (containsSub "import std;".data generated_code.data ||
        pl.any (fun l => pyStrip l == "import std;")) = false := by
      simpa using hc
    simp only [bind, Except.bind, hc', h2, h3]
    simp only [Bool.false_eq_true, if_false]
    rfl

/-- Witness for C7 at a concrete sample: the prologue is `top`, the
generated code `g1` does not mention `import std;`, so the implicit import
is injected after the prologue line. -/
theorem claim_C7_witness :
    run_dslx_tests_full_code "g1" sampleWithPrologue =
      .ok "top\nimport std;\n\ng1\n\n// -- tests\n\nt1" := by
  have h := claim_C7 "g1" sampleWithPrologue ["top"] "g1" "t1" rfl rfl rfl
  rw [h]
  rfl

theorem segAux_names :
    ∀ (lines : List String) (cur : Option (String × List String))
      (seg : String × List String), seg ∈ segAux lines cur →
      (∃ c, cur = some c ∧ seg.1 = c.1) ∨
      (∃ l ∈ lines, pyStartsWith l "## " = true ∧
        seg.1 = pyLower (pyStrip ⟨l.data.drop 3⟩)) := by
  intro lines
  induction lines with
  | nil =>
      intro cur seg h
      cases cur with
      | none => cases h
      | some c =>
          simp only [segAux, List.mem_singleton] at h
          exact Or.inl ⟨c, rfl, by rw [h]⟩
  | cons l rest ih =>
      intro cur seg h
      by_cases hsw : pyStartsWith l "## " = true
      · simp only [segAux, hsw, if_true] at h
        cases cur with
        | none =>
            rcases ih _ seg h with ⟨c, hc, hname⟩ | ⟨l0, hl0, hsw0, hname⟩
            · cases hc
              exact Or.inr ⟨l, by simp, hsw, hname⟩
            · exact Or.inr ⟨l0, by simp [hl0], hsw0, hname⟩
        | some s =>
            rcases List.mem_cons.mp h with he | hmem
            · exact Or.inl ⟨s, rfl, by rw [he]⟩
            · rcases ih _ seg hmem with ⟨c, hc, hname⟩ | ⟨l0, hl0, hsw0, hname⟩
              · cases hc
                exact Or.inr ⟨l, by simp, hsw, hname⟩
              · exact Or.inr ⟨l0, by simp [hl0], hsw0, hname⟩
      · have hsw' : pyStartsWith l "## " = false := by simpa using hsw
        simp only [segAux, hsw', Bool.false_eq_true, if_false] at h
        cases cur with
        | none =>
            rcases ih _ seg h with ⟨c, hc, _⟩ | ⟨l0, hl0, hsw0, hname⟩
            · cases hc
            · exact Or.inr ⟨l0, by simp [hl0], hsw0, hname⟩
        | some s =>
            rcases ih _ seg h with ⟨c, hc, hname⟩ | ⟨l0, hl0, hsw0, hname⟩
            · cases hc
              exact Or.inl ⟨s, rfl, hname⟩
            · exact Or.inr ⟨l0, by simp [hl0], hsw0, hname⟩

theorem sectionsGet_none (content k : String)
    (h : ∀ l ∈ pySplitlines content,
      ¬(pyStartsWith l "## " = true ∧ pyLower (pyStrip ⟨l.data.drop 3⟩) = k)) :
    sectionsGet content k = none := by
  unfold sectionsGet
  have hfil : (segAux (pySplitlines content) none).filter (fun s => s.1 == k) = [] := by
    rw [List.filter_eq_nil_iff]
    intro seg hseg
    rcases segAux_names _ _ _ hseg with ⟨c, hc, _⟩ | ⟨l, hl, hsw, hname⟩
    · cases hc
    · simp only [beq_iff_eq]
      intro hk
      exact h l hl ⟨hsw, by rw [← hname, hk]⟩
  rw [hfil]
  rfl

/-- C10: `parse_sample` fails (raises `KeyError`) on every document that has
no `## prompt` header, no `## signature` header or no `## tests` header
(header names compared after stripping and ASCII lowercasing; lines before
the first level-2 header belong to no section). -/
theorem claim_C10 (content : String)
    (h : (∀ l ∈ pySplitlines content,
            ¬(pyStartsWith l "## " = true ∧
              pyLower (pyStrip ⟨l.data.drop 3⟩) = "prompt")) ∨
         (∀ l ∈ pySplitlines content,
            ¬(pyStartsWith l "## " = true ∧
              pyLower (pyStrip ⟨l.data.drop 3⟩) = "signature")) ∨
         (∀ l ∈ pySplitlines content,
            ¬(pyStartsWith l "## " = true ∧
              pyLower (pyStrip ⟨l.data.drop 3⟩) = "tests"))) :
    ∃ e, parse_sample content = .error e := by
  rcases h with h | h | h
  · have hp := sectionsGet_none content "prompt" h
    unfold parse_sample
    rw [hp]
    exact ⟨_, rfl⟩
  · have hs := sectionsGet_none content "signature" h
    unfold parse_sample
    cases hp : sectionsGet content "prompt" with
    | none => exact ⟨_, rfl⟩
    | some p =>
        rw [hs]
        exact ⟨_, rfl⟩
  · have ht := sectionsGet_none content "tests" h
    unfold parse_sample
    cases hp : sectionsGet content "prompt" with
    | none => exact ⟨_, rfl⟩
    | some p =>
        cases hs : sectionsGet content "signature" with
        | none => exact ⟨_, rfl⟩
        | some sg =>
            rw [ht]
            exact ⟨_, rfl⟩

/-- Witness for C10 at a document with a prompt section but no signature
section. -/
theorem claim_C10_witness :
    ∃ e, parse_sample "junk before\n## Prompt\nhello\n## tests\nt" = .error e :=
  claim_C10 "junk before\n## Prompt\nhello\n## tests\nt" (Or.inr (Or.inl (by decide)))

theorem evalLoop_fence (env : Env) (rc : Bool) (req : Option String)
    (attempt : Nat) (fb : Option String) (budget : Nat) (e : String)
    (h : strip_fences (env.gen attempt fb) = .error e) :
    evalLoop env rc req attempt fb (budget + 1) =
      ((evalLoop env rc req (attempt + 1) (some (fenceFeedback e)) budget).1,
       ⟨attempt, fb, env.gen attempt fb, none, none⟩ ::
         (evalLoop env rc req (attempt + 1) (some (fenceFeedback e)) budget).2) := by
  simp only [evalLoop, h]

theorem evalLoop_run_fail (env : Env) (rc : Bool) (req : Option String)
    (attempt : Nat) (fb : Option String) (budget : Nat) (s : String)
    (h1 : strip_fences (env.gen attempt fb) = .ok s)
    (h2 : (env.run attempt (env.gen attempt fb)).success = false) :
    evalLoop env rc req attempt fb (budget + 1) =
      ((evalLoop env rc req (attempt + 1)
          (some (env.run attempt (env.gen attempt fb)).stderr) budget).1,
       ⟨attempt, fb, env.gen attempt fb,
         some (env.run attempt (env.gen attempt fb)), none⟩ ::
         (evalLoop env rc req (attempt + 1)
           (some (env.run attempt (env.gen attempt fb)).stderr) budget).2) := by
  simp only [evalLoop, h1, h2, Bool.false_eq_true, if_false]

theorem evalLoop_success_nocritic (env : Env) (rc : Bool) (req : Option String)
    (attempt : Nat) (fb : Option String) (budget : Nat) (s : String)
    (h1 : strip_fences (env.gen attempt fb) = .ok s)
    (h2 : (env.run attempt (env.gen attempt fb)).success = true)
    (h3 : wantsCritic rc req = false) :
    evalLoop env rc req attempt fb (budget + 1) =
      (⟨true, attempt == 1⟩,
       [⟨attempt, fb, env.gen attempt fb,
         some (env.run attempt (env.gen attempt fb)), none⟩]) := by
  simp only [evalLoop, h1, h2, h3, if_true, Bool.false_eq_true, if_false]

theorem evalLoop_success_critic_ok (env : Env) (rc : Bool) (req : Option String)
    (attempt : Nat) (fb : Option String) (budget : Nat) (s : String)
    (h1 : strip_fences (env.gen attempt fb) = .ok s)
    (h2 : (env.run attempt (env.gen attempt fb)).success = true)
    (h3 : wantsCritic rc req = true)
    (h4 : (env.critic attempt (env.gen attempt fb)).ok = true) :
    evalLoop env rc req attempt fb (budget + 1) =
      (⟨true, attempt == 1⟩,
       [⟨attempt, fb, env.gen attempt fb,
         some (env.run attempt (env.gen attempt fb)),
         some (env.critic attempt (env.gen attempt fb))⟩]) := by
  simp only [evalLoop, h1, h2, h3, h4, if_true]

theorem evalLoop_critic_bad (env : Env) (rc : Bool) (req : Option String)
    (attempt : Nat) (fb : Option String) (budget : Nat) (s : String)
    (h1 : strip_fences (env.gen attempt fb) = .ok s)
    (h2 : (env.run attempt (env.gen attempt fb)).success = true)
    (h3 : wantsCritic rc req = true)
    (h4 : (env.critic attempt (env.gen attempt fb)).ok = false) :
    evalLoop env rc req attempt fb (budget + 1) =
      ((evalLoop env rc req (attempt + 1)
          (some (criticFeedback (env.critic attempt (env.gen attempt fb)).message)) budget).1,
       ⟨attempt, fb, env.gen attempt fb,
         some (env.run attempt (env.gen attempt fb)),
         some (env.critic attempt (env.gen attempt fb))⟩ ::
         (evalLoop env rc req (attempt + 1)
           (some (criticFeedback (env.critic attempt (env.gen attempt fb)).message)) budget).2) := by
  simp only [evalLoop, h1, h2, h3, h4, if_true, Bool.false_eq_true, if_false]

theorem evalLoop_all_fail (env : Env) (rc : Bool) (req : Option String)
    (hfail : ∀ k c, (env.run k c).success = false) :
    ∀ (budget attempt : Nat) (fb : Option String),
      (evalLoop env rc req attempt fb budget).1 = ⟨false, false⟩ ∧
      ((evalLoop env rc req attempt fb budget).2.map (·.index)) =
        List.range' attempt budget := by
  intro budget
  induction budget with
  | zero => intro attempt fb; exact ⟨rfl, rfl⟩
  | succ b ih =>
      intro attempt fb
      have hrange : List.range' attempt (b + 1) = attempt :: List.range' (attempt + 1) b := rfl
      cases hsf : strip_fences (env.gen attempt fb) with
      | error e =>
          rw [evalLoop_fence env rc req attempt fb b e hsf]
          rcases ih (attempt + 1) (some (fenceFeedback e)) with ⟨ih1, ih2⟩
          exact ⟨ih1, by simp [ih2, hrange]⟩
      | ok s =>
          rw [evalLoop_run_fail env rc req attempt fb b s hsf (hfail _ _)]
          rcases ih (attempt + 1) (some (env.run attempt (env.gen attempt fb)).stderr)
            with ⟨ih1, ih2⟩
          exact ⟨ih1, by simp [ih2, hrange]⟩

/-- C1 (amended): when every toolchain run fails, `evaluate_sample` returns
the failure outcome `⟨false, false⟩` after exactly `max 1 N` attempts (the
attempt indices of the history are exactly `1, …, max 1 N`).  The outcome
record itself carries no `final_generated_code` field: the candidate of the
last attempt lives only in the attempt history (its last entry), see the
counterexample. -/
theorem claim_C1_amended (env : Env) (sample : Sample) (N : Int) (rc : Bool)
    (hfail : ∀ k c, (env.run k c).success = false) :
    (evaluate_sample env sample N rc).1 = ⟨false, false⟩ ∧
    ((evaluate_sample env sample N rc).2.map (·.index)) =
      List.range' 1 (max 1 N).toNat :=
  evalLoop_all_fail env rc sample.requirements hfail (max 1 N).toNat 1 none

/-- C1 counterexample: two runs that differ only in the candidate text of the
(final) attempt produce identical `EvaluateSampleResult` outcomes — the
outcome has no `final_generated_code` field at all, so the claim's
`final_generated_code = candidate of attempt N` fails; the last candidate is
recoverable only from the attempt history. -/
theorem claim_C1_counterexample :
    (evaluate_sample envFailA sampleBare 1 false).1.success = false ∧
    (evaluate_sample envFailA sampleBare 1 false).1 =
      (evaluate_sample envFailB sampleBare 1 false).1 ∧
    ((evaluate_sample envFailA sampleBare 1 false).2.map (·.generated)) = ["candidateA"] ∧
    ((evaluate_sample envFailB sampleBare 1 false).2.map (·.generated)) = ["candidateB"] ∧
    ("candidateA" : String) ≠ "candidateB" := by
  refine ⟨rfl, rfl, rfl, rfl, by decide⟩

/-- Witness for C1 (amended) at `N = 3` with the always-failing environment. -/
theorem claim_C1_witness :
    (evaluate_sample envFailA sampleBare 3 false).1 = ⟨false, false⟩ ∧
    ((evaluate_sample envFailA sampleBare 3 false).2.map (·.index)) = [1, 2, 3] := by
  have h := claim_C1_amended envFailA sampleBare 3 false (fun _ _ => rfl)
  refine ⟨h.1, ?_⟩
  rw [h.2]
  rfl

/-- C2: when the first attempt's candidate fence-validates, its toolchain run
succeeds, and the critic step is disabled or the sample has no requirements,
`evaluate_sample` returns success with `first_attempt_success = true`. -/
theorem claim_C2 (env : Env) (sample : Sample) (N : Int) (rc : Bool) (s : String)
    (hf : strip_fences (env.gen 1 none) = .ok s)
    (hr : (env.run 1 (env.gen 1 none)).success = true)
    (hc : rc = false ∨ sample.requirements = none) :
    (evaluate_sample env sample N rc).1 = ⟨true, true⟩ := by
  have hw : wantsCritic rc sample.requirements = false := by
    rcases hc with h | h
    · simp [wantsCritic, h]
    · simp [wantsCritic, h]
  obtain ⟨b, hb⟩ : ∃ b, (max 1 N).toNat = b + 1 := by
    have h1 : (1 : Int) ≤ max 1 N := le_max_left 1 N
    refine ⟨(max 1 N).toNat - 1, ?_⟩
    omega
  unfold evaluate_sample
  rw [hb]
  rw [evalLoop_success_nocritic env rc sample.requirements 1 none b s hf hr hw]
  rfl

/-- Witness for C2 with a first-attempt-success environment and the critic
step disabled. -/
theorem claim_C2_witness :
    strip_fences (envFirstOk.gen 1 none) = .ok "fn f" ∧
    (envFirstOk.run 1 (envFirstOk.gen 1 none)).success = true ∧
    (evaluate_sample envFirstOk sampleBare 3 false).1 = ⟨true, true⟩ :=
  ⟨rfl, rfl, claim_C2 envFirstOk sampleBare 3 false "fn f" rfl rfl (Or.inl rfl)⟩

theorem evalLoop_head (env : Env) (rc : Bool) (req : Option String) :
    ∀ (budget attempt : Nat) (fb : Option String) (t : AttemptTrace),
      ((evalLoop env rc req attempt fb budget).2).head? = some t →
      t.feedbackUsed = fb ∧ t.index = attempt := by
  intro budget attempt fb t h
  cases budget with
  | zero => simp [evalLoop] at h
  | succ b =>
      cases hsf : strip_fences (env.gen attempt fb) with
      | error e =>
          rw [evalLoop_fence env rc req attempt fb b e hsf] at h
          simp only [List.head?_cons, Option.some.injEq] at h
          rw [← h]
          exact ⟨rfl, rfl⟩
      | ok s =>
          by_cases hrs : (env.run attempt (env.gen attempt fb)).success = true
          · by_cases hw : wantsCritic rc req = true
            · by_cases hok : (env.critic attempt (env.gen attempt fb)).ok = true
              · rw [evalLoop_success_critic_ok env rc req attempt fb b s hsf hrs hw hok] at h
                simp only [List.head?_cons, Option.some.injEq] at h
                rw [← h]
                exact ⟨rfl, rfl⟩
              · rw [evalLoop_critic_bad env rc req attempt fb b s hsf hrs hw
                    (by simpa using hok)] at h
                simp only [List.head?_cons, Option.some.injEq] at h
                rw [← h]
                exact ⟨rfl, rfl⟩
            · rw [evalLoop_success_nocritic env rc req attempt fb b s hsf hrs
                  (by simpa using hw)] at h
              simp only [List.head?_cons, Option.some.injEq] at h
              rw [← h]
              exact ⟨rfl, rfl⟩
          · rw [evalLoop_run_fail env rc req attempt fb b s hsf (by simpa using hrs)] at h
            simp only [List.head?_cons, Option.some.injEq] at h
            rw [← h]
            exact ⟨rfl, rfl⟩

theorem evalLoop_fence_no_run (env : Env) (rc : Bool) (req : Option String) :
    ∀ (budget attempt : Nat) (fb : Option String) (i : Nat) (t : AttemptTrace)
      (e : String),
      (evalLoop env rc req attempt fb budget).2[i]? = some t →
      strip_fences t.generated = .error e →
      t.runResult = none ∧
      (∀ t', (evalLoop env rc req attempt fb budget).2[i + 1]? = some t' →
        t'.index = t.index + 1 ∧ t'.feedbackUsed = some (fenceFeedback e)) := by
  intro budget
  induction budget with
  | zero => intro attempt fb i t e h1 _; simp [evalLoop] at h1
  | succ b ih =>
      intro attempt fb i t e h1 h2
      cases hsf : strip_fences (env.gen attempt fb) with
      | error e0 =>
          rw [evalLoop_fence env rc req attempt fb b e0 hsf] at h1 ⊢
          cases i with
          | zero =>
              simp only [List.getElem?_cons_zero, Option.some.injEq] at h1
              rw [← h1] at h2 ⊢
              have he : e0 = e := by
                have h2' : strip_fences (env.gen attempt fb) = .error e := h2
                rw [hsf] at h2'
                exact Except.error.inj h2'
              refine ⟨rfl, ?_⟩
              intro t' h3
              simp only [List.getElem?_cons_succ] at h3
              have hh : (evalLoop env rc req (attempt + 1)
                  (some (fenceFeedback e0)) b).2.head? = some t' := by
                cases hrest : (evalLoop env rc req (attempt + 1)
                    (some (fenceFeedback e0)) b).2 with
                | nil => rw [hrest] at h3; cases h3
                | cons a l =>
                    rw [hrest] at h3
                    simp only [List.getElem?_cons_zero] at h3
                    rw [List.head?_cons, h3]
              have hht := evalLoop_head env rc req b (attempt + 1)
                (some (fenceFeedback e0)) t' hh
              exact ⟨hht.2, by rw [hht.1, he]⟩
          | succ j =>
              simp only [List.getElem?_cons_succ] at h1 ⊢
              exact ih (attempt + 1) (some (fenceFeedback e0)) j t e h1 h2
      | ok s =>
          by_cases hrs : (env.run attempt (env.gen attempt fb)).success = true
          · by_cases hw : wantsCritic rc req = true
            · by_cases hok : (env.critic attempt (env.gen attempt fb)).ok = true
              · rw [evalLoop_success_critic_ok env rc req attempt fb b s hsf hrs hw hok]
                  at h1 ⊢
                cases i with
                | zero =>
                    exfalso
                    simp only [List.getElem?_cons_zero, Option.some.injEq] at h1
                    rw [← h1] at h2
                    have h2' : strip_fences (env.gen attempt fb) = .error e := h2
                    rw [hsf] at h2'
                    cases h2'
                | succ j =>
                    exfalso
                    simp only [List.getElem?_cons_succ] at h1
                    simp at h1
              · rw [evalLoop_critic_bad env rc req attempt fb b s hsf hrs hw
                    (by simpa using hok)] at h1 ⊢
                cases i with
                | zero =>
                    exfalso
                    simp only [List.getElem?_cons_zero, Option.some.injEq] at h1
                    rw [← h1] at h2
                    have h2' : strip_fences (env.gen attempt fb) = .error e := h2
                    rw [hsf] at h2'
                    cases h2'
                | succ j =>
                    simp only [List.getElem?_cons_succ] at h1 ⊢
                    exact ih (attempt + 1) _ j t e h1 h2
            · rw [evalLoop_success_nocritic env rc req attempt fb b s hsf hrs
                  (by simpa using hw)] at h1 ⊢
              cases i with
              | zero =>
                  exfalso
                  simp only [List.getElem?_cons_zero, Option.some.injEq] at h1
                  rw [← h1] at h2
                  have h2' : strip_fences (env.gen attempt fb) = .error e := h2
                  rw [hsf] at h2'
                  cases h2'
              | succ j =>
                  exfalso
                  simp only [List.getElem?_cons_succ] at h1
                  simp at h1
          · rw [evalLoop_run_fail env rc req attempt fb b s hsf
                (by simpa using hrs)] at h1 ⊢
            cases i with
            | zero =>
                exfalso
                simp only [List.getElem?_cons_zero, Option.some.injEq] at h1
                rw [← h1] at h2
                have h2' : strip_fences (env.gen attempt fb) = .error e := h2
                rw [hsf] at h2'
                cases h2'
            | succ j =>
                simp only [List.getElem?_cons_succ] at h1 ⊢
                exact ih (attempt + 1) _ j t e h1 h2

/-- C3: when fence validation of the candidate of some attempt fails, that
attempt's history entry records no `RunResult` (the toolchain was not
invoked), and the following attempt — if there is one — has index one higher
and is driven by exactly the fixed fence-error corrective feedback (not by
any toolchain stderr). -/
theorem claim_C3 (env : Env) (sample : Sample) (N : Int) (rc : Bool)
    (i : Nat) (t : AttemptTrace) (e : String)
    (h1 : (evaluate_sample env sample N rc).2[i]? = some t)
    (h2 : strip_fences t.generated = .error e) :
    t.runResult = none ∧
    ∀ t', (evaluate_sample env sample N rc).2[i + 1]? = some t' →
      t'.index = t.index + 1 ∧ t'.feedbackUsed = some (fenceFeedback e) :=
  evalLoop_fence_no_run env rc sample.requirements (max 1 N).toNat 1 none i t e h1 h2

/-- Witness for C3: attempt 1 replies a lone opening fence; the history shows
no run result for attempt 1, and attempt 2 consumed the fence feedback. -/
theorem claim_C3_witness :
    ((evaluate_sample envFenceFirst sampleBare 2 false).2[0]?.map (·.runResult)) =
      some none ∧
    ((evaluate_sample envFenceFirst sampleBare 2 false).2[1]?.map (·.feedbackUsed)) =
      some (some (fenceFeedback "Code block consists solely of an opening ``` fence.")) := by
  obtain ⟨hr, hnext⟩ := claim_C3 envFenceFirst sampleBare 2 false 0
    ⟨1, none, "```", none, none⟩
    "Code block consists solely of an opening ``` fence." rfl rfl
  have h0 : (evaluate_sample envFenceFirst sampleBare 2 false).2[0]? =
      some ⟨1, none, "```", none, none⟩ := rfl
  have h1 : (evaluate_sample envFenceFirst sampleBare 2 false).2[1]? =
      some ⟨2, some (fenceFeedback "Code block consists solely of an opening ``` fence."),
            "fnbody", some ⟨"cmd", false, 1, "", "boom"⟩, none⟩ := rfl
  have h2 := hnext _ h1
  constructor
  · rw [h0]
    exact congrArg some hr
  · rw [h1]
    exact congrArg some h2.2

theorem slAux_ne_nil :
    ∀ (cs acc : List Char), acc ≠ [] ∨ cs ≠ [] → slAux cs acc false ≠ [] := by
  intro cs
  induction cs with
  | nil =>
      intro acc h
      have hacc : acc ≠ [] := by
        rcases h with h | h
        · exact h
        · exact absurd rfl h
      have he : acc.isEmpty = false := by
        cases acc with
        | nil => exact absurd rfl hacc
        | cons a l => rfl
      simp [slAux, he]
  | cons c rest ih =>
      intro acc _
      rw [slAux]
      have hskip : ¬ ((false = true) ∧ c = '\n') := by simp
      rw [if_neg hskip]
      by_cases hc : c = '\x0d'
      · rw [if_pos hc]; simp
      · rw [if_neg hc]
        by_cases hb : isLineBreak c = true
        · rw [if_pos hb]; simp
        · rw [if_neg hb]
          exact ih (c :: acc) (Or.inl (by simp))

theorem slAux_lines_break_free :
    ∀ (cs acc : List Char) (skip : Bool),
      (∀ c ∈ acc, isLineBreak c = false) →
      ∀ l ∈ slAux cs acc skip, ∀ c ∈ l, isLineBreak c = false := by
  intro cs
  induction cs with
  | nil =>
      intro acc skip hacc l hl c hc
      by_cases he : acc.isEmpty = true
      · simp [slAux, he] at hl
      · have he' : acc.isEmpty = false := by simpa using he
        simp only [slAux, he', Bool.false_eq_true, if_false, List.mem_singleton] at hl
        rw [hl] at hc
        exact hacc c (List.mem_reverse.mp hc)
  | cons c0 rest ih =>
      intro acc skip hacc l hl c hc
      rw [slAux] at hl
      by_cases h1 : (skip = true) ∧ c0 = '\n'
      · rw [if_pos h1] at hl
        exact ih acc false hacc l hl c hc
      · rw [if_neg h1] at hl
        by_cases h2 : c0 = '\x0d'
        · rw [if_pos h2] at hl
          rcases List.mem_cons.mp hl with he | hm
          · rw [he] at hc
            exact hacc c (List.mem_reverse.mp hc)
          · exact ih [] true (by simp) l hm c hc
        · rw [if_neg h2] at hl
          by_cases h3 : isLineBreak c0 = true
          · rw [if_pos h3] at hl
            rcases List.mem_cons.mp hl with he | hm
            · rw [he] at hc
              exact hacc c (List.mem_reverse.mp hc)
            · exact ih [] false (by simp) l hm c hc
          · rw [if_neg h3] at hl
            refine ih (c0 :: acc) false ?_ l hl c hc
            intro x hx
            rcases List.mem_cons.mp hx with he | hm
            · rw [he]; simpa using h3
            · exact hacc x hm

theorem joinNL_cons (l : List Char) (ls : List (List Char)) (h : ls ≠ []) :
    joinNL (l :: ls) = l ++ '\n' :: joinNL ls := by
  cases ls with
  | nil => exact absurd rfl h
  | cons a m => rfl

theorem mem_joinNL :
    ∀ (ls : List (List Char)) (ch : Char), ch ∈ joinNL ls →
      (∃ l ∈ ls, ch ∈ l) ∨ ch = '\n' := by
  intro ls
  induction ls with
  | nil => intro ch h; cases h
  | cons a m ih =>
      intro ch h
      cases m with
      | nil =>
          exact Or.inl ⟨a, by simp, by simpa [joinNL] using h⟩
      | cons b m2 =>
          rw [joinNL_cons a (b :: m2) (by simp)] at h
          rcases List.mem_append.mp h with h1 | h1
          · exact Or.inl ⟨a, by simp, h1⟩
          · rcases List.mem_cons.mp h1 with he | hm
            · exact Or.inr he
            · rcases ih ch hm with ⟨l, hl, hcl⟩ | he
              · exact Or.inl ⟨l, by simp [hl], hcl⟩
              · exact Or.inr he

theorem slAux_append_line :
    ∀ (a : List Char), (∀ c ∈ a, isLineBreak c = false) →
      ∀ (cs acc : List Char),
        slAux (a ++ cs) acc false = slAux cs (a.reverse ++ acc) false := by
  intro a
  induction a with
  | nil => intro _ cs acc; simp
  | cons c a0 ih =>
      intro h cs acc
      have hcb : isLineBreak c = false := h c (by simp)
      rw [List.cons_append, slAux_cons_not_break c (a0 ++ cs) acc hcb]
      rw [ih (fun x hx => h x (by simp [hx])) cs (c :: acc)]
      simp

theorem slAux_reconstruct :
    ∀ (cs : List Char), (∀ c ∈ cs, isLineBreak c = true → c = '\n') →
      ∀ acc : List Char,
        joinNL (slAux cs acc false) ++
          (if cs.getLast? = some '\n' then ['\n'] else []) = acc.reverse ++ cs := by
  intro cs
  induction cs with
  | nil =>
      intro _ acc
      by_cases he : acc.isEmpty = true
      · have : acc = [] := by
          cases acc with
          | nil => rfl
          | cons x l => cases he
        simp [slAux, this, joinNL]
      · have he' : acc.isEmpty = false := by simpa using he
        simp [slAux, he', joinNL]
  | cons c rest ih =>
      intro honly acc
      by_cases hb : isLineBreak c = true
      · have hcnl : c = '\n' := honly c (by simp) hb
        subst hcnl
        rw [slAux_cons_nl rest acc]
        cases rest with
        | nil =>
            simp [slAux, joinNL]
        | cons r rs =>
            have hS : slAux (r :: rs) [] false ≠ [] :=
              slAux_ne_nil (r :: rs) [] (Or.inr (by simp))
            rw [joinNL_cons _ _ hS]
            have hlast : ('\n' :: r :: rs).getLast? = (r :: rs).getLast? :=
              List.getLast?_cons_cons
            rw [hlast]
            have ihr := ih (fun x hx hbx => honly x (by simp [hx]) hbx) []
            simp only [List.reverse_nil, List.nil_append] at ihr
            rw [List.append_assoc, List.cons_append, ihr]
      · have hb' : isLineBreak c = false := by simpa using hb
        rw [slAux_cons_not_break c rest acc hb']
        have hlast : (c :: rest).getLast? = some '\n' ↔ rest.getLast? = some '\n' := by
          cases rest with
          | nil =>
              simp only [List.getLast?_singleton, List.getLast?_nil]
              constructor
              · intro hx
                exfalso
                have : c = '\n' := by simpa using hx
                rw [this] at hb'
                cases hb'
              · intro hx; cases hx
          | cons r rs =>
              rw [List.getLast?_cons_cons]
        have ihr := ih (fun x hx hbx => honly x (by simp [hx]) hbx) (c :: acc)
        have htail : (if (c :: rest).getLast? = some '\n' then ['\n'] else []) =
            (if rest.getLast? = some '\n' then ['\n'] else []) := by
          by_cases hg : rest.getLast? = some '\n'
          · rw [if_pos hg, if_pos (hlast.mpr hg)]
          · rw [if_neg hg, if_neg (fun hx => hg (hlast.mp hx))]
        rw [htail, ihr]
        simp

theorem slAux_join_mem :
    ∀ (ls : List (List Char)) (nl : List Char),
      (∀ l ∈ ls, ∀ c ∈ l, isLineBreak c = false) →
      (nl = [] ∨ nl = ['\n']) →
      ∀ l ∈ slAux (joinNL ls ++ nl) [] false, l ∈ ls ∨ l = [] := by
  intro ls
  induction ls with
  | nil =>
      intro nl _ hnl l hl
      rcases hnl with h | h
      · rw [h] at hl
        cases hl
      · rw [h] at hl
        simp only [joinNL, List.nil_append] at hl
        rw [slAux_cons_nl [] []] at hl
        simp only [List.reverse_nil] at hl
        rcases List.mem_cons.mp hl with he | hm
        · exact Or.inr he
        · simp [slAux] at hm
  | cons a m ih =>
      intro nl hbf hnl l hl
      have hab : ∀ c ∈ a, isLineBreak c = false := hbf a (by simp)
      cases m with
      | nil =>
          simp only [joinNL] at hl
          rw [slAux_append_line a hab nl []] at hl
          rcases hnl with h | h
          · rw [h] at hl
            by_cases ha : a = []
            · rw [ha] at hl
              simp [slAux] at hl
            · have he' : (a.reverse ++ []).isEmpty = false := by
                simp [List.isEmpty_iff, ha]
              simp only [slAux, he', Bool.false_eq_true, if_false,
                List.mem_singleton] at hl
              rw [hl]
              simp
          · rw [h] at hl
            rw [slAux_cons_nl [] (a.reverse ++ [])] at hl
            rcases List.mem_cons.mp hl with he | hm
            · rw [he]
              simp
            · simp [slAux] at hm
      | cons b m2 =>
          rw [joinNL_cons a (b :: m2) (by simp)] at hl
          rw [List.append_assoc, List.cons_append] at hl
          rw [slAux_append_line a hab _ []] at hl
          rw [slAux_cons_nl _ (a.reverse ++ [])] at hl
          rcases List.mem_cons.mp hl with he | hm
          · rw [he]
            simp
          · rcases ih nl (fun x hx => hbf x (by simp [hx])) hnl l hm with h1 | h1
            · exact Or.inl (by simp [List.mem_cons.mp h1])
            · exact Or.inr h1

theorem splitFlagsLines_kept :
    ∀ (lines : List (List Char)) (f kept : List (List Char)),
      splitFlagsLines lines = .ok (f, kept) →
      ∀ l ∈ kept, matchDirectiveL l = none ∧ l ∈ lines := by
  intro lines
  induction lines with
  | nil =>
      intro f kept h l hl
      have : kept = [] := by
        have h' : (Except.ok (([] : List (List Char)), ([] : List (List Char))) :
            Except String (List (List Char) × List (List Char))) = .ok (f, kept) := h
        have := Except.ok.inj h'
        exact (congrArg Prod.snd this).symm
      rw [this] at hl
      cases hl
  | cons l0 rest ih =>
      intro f kept h l hl
      cases hm : matchDirectiveL l0 with
      | some g =>
          simp only [splitFlagsLines, hm] at h
          cases hs : shlexSplitL g with
          | error m => rw [hs] at h; cases h
          | ok toks =>
              rw [hs] at h
              cases hrec : splitFlagsLines rest with
              | error m => rw [hrec] at h; cases h
              | ok p =>
                  rw [hrec] at h
                  have h' : (Except.ok (toks ++ p.1, p.2) :
                      Except String (List (List Char) × List (List Char))) = .ok (f, kept) := h
                  have hk : p.2 = kept := congrArg Prod.snd (Except.ok.inj h')
                  rw [← hk] at hl
                  have := ih p.1 p.2 (by rw [hrec]) l hl
                  exact ⟨this.1, by simp [this.2]⟩
      | none =>
          simp only [splitFlagsLines, hm] at h
          cases hrec : splitFlagsLines rest with
          | error m => rw [hrec] at h; cases h
          | ok p =>
              rw [hrec] at h
              have h' : (Except.ok (p.1, l0 :: p.2) :
                  Except String (List (List Char) × List (List Char))) = .ok (f, kept) := h
              have hk : l0 :: p.2 = kept := congrArg Prod.snd (Except.ok.inj h')
              rw [← hk] at hl
              rcases List.mem_cons.mp hl with he | hmem
              · rw [he]
                exact ⟨hm, by simp⟩
              · have := ih p.1 p.2 (by rw [hrec]) l hmem
                exact ⟨this.1, by simp [this.2]⟩

theorem splitFlagsLines_none :
    ∀ (lines : List (List Char)),
      (∀ l ∈ lines, matchDirectiveL l = none) →
      splitFlagsLines lines = .ok ([], lines) := by
  intro lines
  induction lines with
  | nil => intro _; rfl
  | cons l0 rest ih =>
      intro h
      have hm : matchDirectiveL l0 = none := h l0 (by simp)
      simp only [splitFlagsLines, hm]
      rw [ih (fun x hx => h x (by simp [hx]))]
      rfl

/-- C9: directive separation is idempotent — re-running
`split_dslx_run_flags_from_code` on the cleaned code it returned yields that
cleaned code unchanged and no flags. -/
theorem claim_C9 (code c : String) (fs : List String)
    (h : split_dslx_run_flags_from_code code = .ok (c, fs)) :
    split_dslx_run_flags_from_code c = .ok (c, []) := by
  unfold split_dslx_run_flags_from_code at h
  cases hsp : splitFlagsLines (slAux code.data [] false) with
  | error m => rw [hsp] at h; cases h
  | ok p =>
      rw [hsp] at h
      have h' : (Except.ok
          ((⟨joinNL p.2 ++ (if pyEndsWithNL code then ['\n'] else [])⟩ : String),
           p.1.map (⟨·⟩)) : Except String (String × List String)) = .ok (c, fs) := h
      have hc : (⟨joinNL p.2 ++ (if pyEndsWithNL code then ['\n'] else [])⟩ : String) = c :=
        congrArg Prod.fst (Except.ok.inj h')
      have hkept := splitFlagsLines_kept _ _ _ hsp
      have hkbf : ∀ l ∈ p.2, ∀ ch ∈ l, isLineBreak ch = false := by
        intro l hl
        exact slAux_lines_break_free code.data [] false (by simp) l (hkept l hl).2
      have hnlor : (if pyEndsWithNL code then ['\n'] else []) = [] ∨
          (if pyEndsWithNL code then ['\n'] else []) = ['\n'] := by
        by_cases hE : pyEndsWithNL code = true
        · exact Or.inr (by rw [if_pos hE])
        · exact Or.inl (by rw [if_neg hE])
      have hcdata : c.data = joinNL p.2 ++ (if pyEndsWithNL code then ['\n'] else []) := by
        rw [← hc]
      have hmem : ∀ l ∈ slAux c.data [] false, l ∈ p.2 ∨ l = [] := by
        rw [hcdata]
        exact slAux_join_mem p.2 _ hkbf hnlor
      have hnone : ∀ l ∈ slAux c.data [] false, matchDirectiveL l = none := by
        intro l hl
        rcases hmem l hl with h1 | h1
        · exact (hkept l h1).1
        · rw [h1]; rfl
      have hsp2 : splitFlagsLines (slAux c.data [] false) = .ok ([], slAux c.data [] false) :=
        splitFlagsLines_none _ hnone
      have honly : ∀ ch ∈ c.data, isLineBreak ch = true → ch = '\n' := by
        rw [hcdata]
        intro ch hch hb
        rcases List.mem_append.mp hch with h1 | h1
        · rcases mem_joinNL p.2 ch h1 with ⟨l, hl, hcl⟩ | h2
          · rw [hkbf l hl ch hcl] at hb; cases hb
          · exact h2
        · rcases hnlor with h2 | h2
          · rw [h2] at h1; cases h1
          · rw [h2] at h1; simpa using h1
      have hrecon : joinNL (slAux c.data [] false) ++
          (if c.data.getLast? = some '\n' then ['\n'] else []) = c.data := by
        have := slAux_reconstruct c.data honly []
        simpa using this
      have hend : (if pyEndsWithNL c then ['\n'] else []) =
          (if c.data.getLast? = some '\n' then ['\n'] else []) := by
        unfold pyEndsWithNL
        by_cases hg : c.data.getLast? = some '\n'
        · rw [if_pos hg, if_pos (by simp [hg])]
        · rw [if_neg hg, if_neg (by simp [hg])]
      have hfinal : (⟨joinNL (slAux c.data [] false) ++
          (if pyEndsWithNL c then ['\n'] else [])⟩ : String) = c := by
        rw [hend]
        rw [hrecon]
      unfold split_dslx_run_flags_from_code
      rw [hsp2]
      show Except.ok (_, _) = _
      rw [hfinal]
      rfl

/-- Witness for C9: re-splitting the cleaned code from the concrete split of
`"a\n// dslx_run_flags: --x\nb\n"` returns it unchanged with no flags. -/
theorem claim_C9_witness :
    split_dslx_run_flags_from_code "a\nb\n" = .ok ("a\nb\n", []) :=
  claim_C9 "a\n// dslx_run_flags: --x\nb\n" "a\nb\n" ["--x"] rfl

end DslxLlm
